import Mathlib

/-!
Shallow embedding of the Brands data-cleaning service (NestJS + Joi + Mongoose).

The embedded code is `BrandsService` (validateAndUpdate, updateToConformSchema,
seedData, generateBrandsData) together with the shared `validate` helper, which
calls the Joi method `Schema.validate(data, { abortEarly: false, convert: true })` on the
module-level `brandsSchema`.

Modelling conventions:
  * A stored document ("record") is an ordered association list from field name
    to value, mirroring the own enumerable keys of a plain JavaScript object.
  * JavaScript numbers are embedded as `Int` (every value the service stores or
    parses is integral); numeric-string syntax is an optional sign followed by
    decimal digits, the fragment of `Number(...)` / `parseInt(...)` the stored
    data exercises.
  * Nested objects are one level deep (`List (String × String)`): the repair
    code never reads deeper than one attribute (`value[brandKey]?.name`), and
    Mongo ObjectIds get their own constructor `oid` (an opaque object with no
    `name` attribute, accepted by `Joi.object()`).
  * `new Date().getFullYear()` in the module-level schema is frozen to 2026.
  * The persistence collaborator is a list of records; `replaceOne` matches the
    first stored record whose `_id` equals the `_id` of the filter and counts a
    modification exactly when the replacement differs from the stored document
    (the `modifiedCount` semantics of Mongo).
-/

namespace Brands

/-- A JavaScript value as stored in a Brand document: string, number (integral),
one-level nested object, date, Mongo ObjectId, or `undefined`. -/
inductive Value where
  | str (s : String)
  | num (n : Int)
  | obj (fields : List (String × String))
  | date (t : Int)
  | oid (k : Nat)
  | undefined
deriving DecidableEq, Repr

/-- A record / document: ordered own-keys of a JavaScript object. -/
abbrev Rec := List (String × Value)

/-- Property read `r[k]`: the binding of key `k`. -/
def getV : Rec → String → Option Value
  | [], _ => none
  | p :: t, k => if p.1 = k then some p.2 else getV t k

/-- Property write `r[k] = v`: updates an existing key in place (JavaScript
keeps the insertion position of the key), otherwise appends the key. -/
def setV : Rec → String → Value → Rec
  | [], k, v => [(k, v)]
  | p :: t, k, v => if p.1 = k then (k, v) :: t else p :: setV t k v

/-- Property delete `delete r[k]`. -/
def delV : Rec → String → Rec
  | [], _ => []
  | p :: t, k => if p.1 = k then delV t k else p :: delV t k

/-- ASCII lower-casing of one character (`String.prototype.toLowerCase` on the
ASCII field names the service handles). -/
def charLower (c : Char) : Char :=
  if 'A' ≤ c ∧ c ≤ 'Z' then Char.ofNat (c.toNat + 32) else c

/-- `s.toLowerCase()`. -/
def lowerStr (s : String) : String := ⟨s.data.map charLower⟩

def isWhite (c : Char) : Bool := c == ' ' || c == '\t' || c == '\n' || c == '\r'

/-- String trimming, as the `.trim()` convert step of Joi performs. -/
def trimStr (s : String) : String :=
  ⟨((s.data.dropWhile isWhite).reverse.dropWhile isWhite).reverse⟩

def listStarts : List Char → List Char → Bool
  | [], _ => true
  | _ :: _, [] => false
  | a :: as, b :: bs => a == b && listStarts as bs

def listSub (pat : List Char) : List Char → Bool
  | [] => pat.isEmpty
  | b :: bs => listStarts pat (b :: bs) || listSub pat bs

/-- `s.includes(pat)`: substring containment. -/
def containsSub (pat s : String) : Bool := listSub pat.data s.data

def digitsVal (cs : List Char) : Nat :=
  cs.foldl (fun a c => a * 10 + (c.toNat - 48)) 0

/-- Splits an optional leading minus sign off a character list. -/
def parseSign : List Char → Bool × List Char
  | '-' :: rest => (true, rest)
  | cs => (false, cs)

/-- `Number(s)` on the integral fragment: `""` is `0`, an optional sign followed
by decimal digits is that integer, anything else is `NaN` (`none`). -/
def jsToNumber? (s : String) : Option Int :=
  if s.data.isEmpty then some 0
  else if (parseSign s.data).2.isEmpty then none
  else if (parseSign s.data).2.all Char.isDigit then
    some (if (parseSign s.data).1 then -(digitsVal (parseSign s.data).2 : Int)
          else (digitsVal (parseSign s.data).2 : Int))
  else none

/-- `isNaN(v)`: number-coercion of a value produces `NaN`. Numbers and dates
coerce to numbers; objects, ObjectIds and `undefined` coerce to `NaN`. -/
def jsIsNaN (v : Value) : Bool :=
  match v with
  | .num _ => false
  | .str s => (jsToNumber? s).isNone
  | .date _ => false
  | _ => true

/-- JavaScript truthiness of a value. -/
def truthy (v : Value) : Bool :=
  match v with
  | .str s => !s.data.isEmpty
  | .num n => n != 0
  | .undefined => false
  | _ => true

/-- `parseInt(v)` on the values the repair branch feeds it: numbers pass
through, strings parse an optional sign and leading digits (0 when no digits
are present, a case the guarded call sites never reach). -/
def jsParseInt (v : Value) : Int :=
  match v with
  | .num n => n
  | .str s =>
    if (parseSign s.data).1 then
      -(digitsVal ((parseSign s.data).2.takeWhile Char.isDigit) : Int)
    else
      (digitsVal ((parseSign s.data).2.takeWhile Char.isDigit) : Int)
  | _ => 0

/-- The value of `new Date().getFullYear()` when the module-level `brandsSchema`
constant is built. -/
def currentYear : Int := 2026

/-- The kinds of Joi validation failures the `brandsSchema` can produce. -/
inductive ErrKind where
  | objectBase | stringBase | stringEmpty | anyRequired
  | numberBase | numberMin | numberMax | dateBase | objectUnknown
deriving DecidableEq, Repr

/-- One entry of `error.details`: the repair code reads `context.key` and
`context.value`. -/
structure JoiError where
  key : String
  value : Value
  kind : ErrKind
deriving DecidableEq, Repr

/-- The keys of the module-level `brandsSchema`, in declaration order. -/
def schemaKeys : List String :=
  ["_id", "brandName", "headquarters", "yearFounded",
   "numberOfLocations", "createdAt", "updatedAt", "__v"]

/-- Errors of `Joi.string().required().trim()` on one field. -/
def stringFieldErrors (k : String) (v? : Option Value) : List JoiError :=
  match v? with
  | none => [⟨k, .undefined, .anyRequired⟩]
  | some (.str s) =>
    if (trimStr s).data.isEmpty then [⟨k, .str s, .stringEmpty⟩] else []
  | some v => [⟨k, v, .stringBase⟩]

/-- Range errors of a converted `Joi.number()` against optional min/max. -/
def numRangeErrs (k : String) (lo? hi? : Option Int) (n : Int) : List JoiError :=
  (match lo? with
   | some lo => if n < lo then [⟨k, .num n, .numberMin⟩] else []
   | none => []) ++
  (match hi? with
   | some hi => if hi < n then [⟨k, .num n, .numberMax⟩] else []
   | none => [])

/-- Errors of `Joi.number()` (with `convert: true`) on one field: numeric
strings convert before the min/max checks; the empty string and non-numeric
values fail the base type check. -/
def numberFieldErrors (required : Bool) (lo? hi? : Option Int)
    (k : String) (v? : Option Value) : List JoiError :=
  match v? with
  | none => if required then [⟨k, .undefined, .anyRequired⟩] else []
  | some (.num n) => numRangeErrs k lo? hi? n
  | some (.str s) =>
    if s.data.isEmpty then [⟨k, .str s, .numberBase⟩]
    else
      match jsToNumber? s with
      | some n => numRangeErrs k lo? hi? n
      | none => [⟨k, .str s, .numberBase⟩]
  | some v => [⟨k, v, .numberBase⟩]

/-- Errors of the optional `_id: Joi.object()` field: any object (including a
Mongo ObjectId) passes, every other present value fails the base check. -/
def objectFieldErrors (v? : Option Value) : List JoiError :=
  match v? with
  | none => []
  | some (.obj _) => []
  | some (.oid _) => []
  | some v => [⟨"_id", v, .objectBase⟩]

/-- Errors of the optional `Joi.date()` fields: dates pass, numbers convert,
other present values fail the base check. -/
def dateFieldErrors (k : String) (v? : Option Value) : List JoiError :=
  match v? with
  | none => []
  | some (.date _) => []
  | some (.num _) => []
  | some v => [⟨k, v, .dateBase⟩]

/-- Reading a schema field: Joi treats a key bound to `undefined` as absent. -/
def getField (r : Rec) (k : String) : Option Value :=
  match getV r k with
  | some .undefined => none
  | o => o

/-- The per-field checker of `brandsSchema`, dispatched on the schema key. -/
def fieldErrors (k : String) (v? : Option Value) : List JoiError :=
  if k = "_id" then objectFieldErrors v?
  else if k = "brandName" ∨ k = "headquarters" then stringFieldErrors k v?
  else if k = "yearFounded" then
    numberFieldErrors true (some 1600) (some currentYear) k v?
  else if k = "numberOfLocations" then
    numberFieldErrors true (some 1) none k v?
  else if k = "createdAt" ∨ k = "updatedAt" then dateFieldErrors k v?
  else numberFieldErrors false none none k v?

/-- The Joi convert step on one binding of the input: trims the string fields,
converts numeric strings of the number fields and numeric timestamps of the
date fields; failed conversions and unknown keys keep the raw value. -/
def convertEntry (k : String) (v : Value) : Value :=
  if k = "brandName" ∨ k = "headquarters" then
    match v with
    | .str s => .str (trimStr s)
    | _ => v
  else if k = "yearFounded" ∨ k = "numberOfLocations" ∨ k = "__v" then
    match v with
    | .str s =>
      if s.data.isEmpty then v
      else
        match jsToNumber? s with
        | some n => .num n
        | none => v
    | _ => v
  else if k = "createdAt" ∨ k = "updatedAt" then
    match v with
    | .num n => .date n
    | _ => v
  else v

/-- The result of `Schema.validate`: the (possibly partially) converted value
and `error.details` (`[]` meaning `error` is `undefined`). -/
structure ValidationResult where
  value : Rec
  errors : List JoiError
deriving DecidableEq, Repr

/-- `validate(data, brandsSchema)` from `src/shared/utlis/validate.ts`:
`brandsSchema.validate(data, { abortEarly: false, convert: true })`.
Non-short-circuiting: the details list carries one group of errors per schema
field (in schema declaration order) followed by an `object.unknown` error for
every key outside the schema. -/
def validate (r : Rec) : ValidationResult :=
  let value := r.map (fun p => (p.1, convertEntry p.1 p.2))
  let fieldErrs := schemaKeys.flatMap (fun k => fieldErrors k (getField r k))
  let unknownErrs :=
    (r.filter (fun p => decide (p.1 ∉ schemaKeys ∧ p.2 ≠ Value.undefined))).map
      (fun p => (⟨p.1, p.2, .objectUnknown⟩ : JoiError))
  ⟨value, fieldErrs ++ unknownErrs⟩

/-- The field categories the repair routine distinguishes. -/
inductive Category where
  | year | locations | headquarters | brandName | unknown
deriving DecidableEq, Repr

/-- The if-chain of `updateToConformSchema`, factored as the field classifier:
lower-case the field name of the error and test substring containment against the
fixed anchors, in source order. -/
def classify (fieldName : String) : Category :=
  if containsSub "year" (lowerStr fieldName) then .year
  else if containsSub "locations" (lowerStr fieldName) then .locations
  else if containsSub "hqaddress" (lowerStr fieldName) then .headquarters
  else if containsSub "brandname" (lowerStr fieldName) then .brandName
  else .unknown

/-- `validatedBrand.value[brandKey]?.name`: the `name` attribute of a nested
object, `undefined` for every other value. -/
def nameAttr (v? : Option Value) : Value :=
  match v? with
  | some (.obj fs) =>
    match (fs.find? (fun p => p.1 == "name")).map (fun p => p.2) with
    | some s => .str s
    | none => .undefined
  | _ => .undefined

/-- `Object.keys(validatedBrand.value).find(key containing "brand", lower-cased)`. -/
def firstBrandKey (valV : Rec) : Option String :=
  (valV.find? (fun p => containsSub "brand" (lowerStr p.1))).map (fun p => p.1)

/-- One iteration of the `forEach` over `validatedBrand.error.details` inside
`updateToConformSchema`: mutates `brand` according to the classified error.
`valV` is `validatedBrand.value`, fixed across the whole loop. In the brandName
branch, `delete brand[brandKey]` with `brandKey` being `undefined` deletes the
literal property name "undefined" (JavaScript coerces the property key). -/
def applyError (valV : Rec) (brand : Rec) (e : JoiError) : Rec :=
  match classify e.key with
  | .year =>
    let b :=
      if !jsIsNaN e.value && truthy e.value then
        setV brand "yearFounded" (.num (jsParseInt e.value))
      else brand
    delV b e.key
  | .locations =>
    let b :=
      if !jsIsNaN e.value && truthy e.value then
        setV brand "numberOfLocations" (.num (jsParseInt e.value))
      else brand
    delV b e.key
  | .headquarters =>
    let b :=
      if jsIsNaN e.value && truthy e.value then
        setV brand "headquarters" e.value
      else brand
    delV b e.key
  | .brandName =>
    let bk? := firstBrandKey valV
    let b := setV brand "brandName" (nameAttr (bk?.bind (getV valV)))
    delV b (bk?.getD "undefined")
  | .unknown => delV brand e.key

/-- The body of the `brands.map` callback in `updateToConformSchema`: validate
the brand; when there are errors, fold the error handlers over the brand and
return it; when the brand is valid, the callback returns `undefined` (`none`),
which the trailing `.filter(Boolean)` removes. -/
def repairBrand (brand : Rec) : Option Rec :=
  match validate brand with
  | ⟨_, []⟩ => none
  | ⟨valV, e :: es⟩ => some ((e :: es).foldl (applyError valV) brand)

/-- `updateToConformSchema(brands)`: map the repair callback over the batch and
filter out the `undefined` results of the already-valid brands. -/
def updateToConformSchema (brands : List Rec) : List Rec :=
  brands.filterMap repairBrand

/-- One `replaceOne` bulk operation: `const { _id, ...updates } = brand`
produces the filter `{ _id }` and the replacement `updates`. -/
structure BulkOp where
  filterId : Option Value
  replacement : Rec
deriving DecidableEq, Repr

def mkBulkOp (brand : Rec) : BulkOp :=
  ⟨getV brand "_id", delV brand "_id"⟩

/-- Replace the first stored document whose `_id` equals `fid` by the
replacement (Mongo keeps the `_id` of the matched document); the `Bool` reports
whether the replacement actually changed the document (the
Mongo `modifiedCount` counts only real changes). -/
def replaceFirst (store : List Rec) (fid : Value) (repl : Rec) :
    Option (List Rec × Bool) :=
  match store with
  | [] => none
  | r :: rest =>
    if getV r "_id" = some fid then
      let newR := ("_id", fid) :: repl
      some (newR :: rest, decide (newR ≠ r))
    else
      (replaceFirst rest fid repl).map (fun p => (r :: p.1, p.2))

/-- Execute one bulk `replaceOne` against the store, accumulating the modified
count. A filter whose `_id` is `undefined` matches no stored document. -/
def applyOp (acc : List Rec × Nat) (op : BulkOp) : List Rec × Nat :=
  match op.filterId with
  | none => acc
  | some fid =>
    match replaceFirst acc.1 fid op.replacement with
    | none => acc
    | some (newStore, changed) =>
      (newStore, acc.2 + if changed then 1 else 0)

/-- The observable outcome of one `validateAndUpdate` call: the response
message, whether a `bulkWrite` was issued, the bulk operations handed to it,
the reported `modifiedCount` of the store, and the store contents afterwards. -/
structure UpdateOutcome where
  message : String
  wrote : Bool
  ops : List BulkOp
  modifiedCount : Nat
  finalStore : List Rec
deriving DecidableEq, Repr

/-- `validateAndUpdate()`: fetch all brands, repair them, return the no-op
message when the corrected set is empty; otherwise re-validate every corrected
brand (taking `.value` of the result), build the `replaceOne` operations and
execute the bulk write, reporting the modified count of the store. -/
def validateAndUpdate (store : List Rec) : UpdateOutcome :=
  match updateToConformSchema store with
  | [] =>
    ⟨"All brand data is already correct. No updates needed.",
     false, [], 0, store⟩
  | u =>
    let revalidated := u.map (fun brand => (validate brand).value)
    let ops := revalidated.map mkBulkOp
    let res := ops.foldl applyOp (store, 0)
    ⟨s!"{res.2} brands updated successfully.", true, ops, res.2, res.1⟩

/-- The seeded faker primitives `generateBrandsData` calls, abstracted over the
generator state type: `faker.seed`, `faker.company.name`,
`faker.number.int({min, max})` and `faker.location.city`. -/
structure FakerApi (σ : Type) where
  seed : Nat → σ
  companyName : σ → String × σ
  numberInt : Int → Int → σ → Int × σ
  city : σ → String × σ

/-- One generated Brand document (before insertion). -/
structure BrandSeed where
  brandName : String
  yearFounded : Int
  headquarters : String
  numberOfLocations : Int
deriving DecidableEq, Repr

/-- The generation loop of `generateBrandsData`: iteration `i` first re-seeds
the generator with `100 + i`, then draws the four attributes in source order,
threading the generator state. -/
def genLoop {σ : Type} (F : FakerApi σ) : Nat → Nat → σ → List BrandSeed × σ
  | 0, _, s => ([], s)
  | Nat.succ m, i, s₀ =>
    let _ := s₀
    let s1 := F.seed (100 + i)
    let bn := F.companyName s1
    let yf := F.numberInt 1600 currentYear bn.2
    let hq := F.city yf.2
    let nl := F.numberInt 1 100 hq.2
    let rest := genLoop F m (i + 1) nl.2
    (⟨bn.1, yf.1, hq.1, nl.1⟩ :: rest.1, rest.2)

/-- `generateBrandsData(numberOfBrands)` starting from ambient generator
state `s`. -/
def generateBrandsData {σ : Type} (F : FakerApi σ) (numberOfBrands : Nat)
    (s : σ) : List BrandSeed × σ :=
  genLoop F numberOfBrands 0 s

/-- The documents `seedData()` inserts: `generateBrandsData(10)`. -/
def seedData {σ : Type} (F : FakerApi σ) (s : σ) : List BrandSeed :=
  (generateBrandsData F 10 s).1

/-! Concrete records used by the counterexamples and witnesses. -/

/-- A record fully conformant to `brandsSchema`. -/
def validAcme : Rec :=
  [("_id", .oid 1), ("brandName", .str "Acme"), ("headquarters", .str "NYC"),
   ("yearFounded", .num 1950), ("numberOfLocations", .num 5)]

/-- The end-to-end test batch record of the specification:
`{_id: 1, brandName: "Acme", yearFounded: "1950", headquarters: "NYC",
numberOfLocations: 5}`. -/
def acmeRec : Rec :=
  [("_id", .num 1), ("brandName", .str "Acme"), ("yearFounded", .str "1950"),
   ("headquarters", .str "NYC"), ("numberOfLocations", .num 5)]

/-- A record whose only validation error is `yearFounded` below the minimum. -/
def rLowYear : Rec :=
  [("_id", .oid 7), ("brandName", .str "A"), ("headquarters", .str "H"),
   ("yearFounded", .num 1500), ("numberOfLocations", .num 2)]

/-- The state of `rLowYear` after one repair pass: the year branch first writes
`yearFounded` and then deletes it, so the field is gone. -/
def rLowYearRepaired : Rec :=
  [("_id", .oid 7), ("brandName", .str "A"), ("headquarters", .str "H"),
   ("numberOfLocations", .num 2)]

/-- A record whose only validation error is one unknown extra field. -/
def rExtra : Rec :=
  [("_id", .oid 3), ("brandName", .str "A"), ("headquarters", .str "H"),
   ("yearFounded", .num 1950), ("numberOfLocations", .num 2),
   ("notes", .str "x")]

/-- The state of `rExtra` after one repair pass: the unknown field is deleted
and the record is fully valid. -/
def rExtraRepaired : Rec :=
  [("_id", .oid 3), ("brandName", .str "A"), ("headquarters", .str "H"),
   ("yearFounded", .num 1950), ("numberOfLocations", .num 2)]

/-- A record with two unknown keys, `brandHq` before `myBrandName`: the
brandName branch then resolves `brandKey` to `brandHq` instead of the
offending key. -/
def rBrandMess : Rec :=
  [("_id", .oid 9), ("brandHq", .str "x"), ("myBrandName", .num 5),
   ("brandName", .str "Acme"), ("headquarters", .str "H"),
   ("yearFounded", .num 1950), ("numberOfLocations", .num 2)]

/-! Basic lemmas about record operations. -/

theorem getV_delV_self (r : Rec) (k : String) : getV (delV r k) k = none := by
  induction r with
  | nil => rfl
  | cons p t ih => by_cases h : p.1 = k <;> simp [getV, delV, h, ih]

theorem getV_delV_ne (r : Rec) {k k' : String} (h : k ≠ k') :
    getV (delV r k') k = getV r k := by
  induction r with
  | nil => rfl
  | cons p t ih =>
    by_cases hp : p.1 = k'
    · have hk : p.1 ≠ k := by rw [hp]; exact Ne.symm h
      simp [getV, delV, hp, hk, h, Ne.symm h, ih]
    · by_cases hk : p.1 = k <;> simp [getV, delV, hp, hk, h, Ne.symm h, ih]

theorem getV_setV_ne (r : Rec) {k k' : String} (v : Value) (h : k ≠ k') :
    getV (setV r k' v) k = getV r k := by
  induction r with
  | nil => simp [getV, setV, Ne.symm h]
  | cons p t ih =>
    by_cases hp : p.1 = k'
    · have hk : p.1 ≠ k := by rw [hp]; exact Ne.symm h
      simp [getV, setV, hp, hk, Ne.symm h]
    · by_cases hk : p.1 = k <;> simp [getV, setV, hp, hk, h, Ne.symm h, ih]

theorem takeWhile_all {p : Char → Bool} {l : List Char} (h : l.all p = true) :
    l.takeWhile p = l := by
  induction l with
  | nil => rfl
  | cons c t ih =>
    simp only [List.all_cons, Bool.and_eq_true] at h
    simp [List.takeWhile_cons, h.1, ih h.2]

/-- On a string `Number(...)` accepts, `parseInt(...)` returns the same
integer. -/
theorem jsParseInt_agrees {s : String} {n : Int} (h : jsToNumber? s = some n)
    (hne : s.data ≠ []) : jsParseInt (Value.str s) = n := by
  unfold jsToNumber? at h
  rw [if_neg (by simpa using hne)] at h
  by_cases h2 : (parseSign s.data).2.isEmpty
  · rw [if_pos h2] at h; cases h
  · rw [if_neg h2] at h
    by_cases h3 : (parseSign s.data).2.all Char.isDigit
    · rw [if_pos (by exact h3)] at h
      injection h with h
      simp only [jsParseInt]
      rw [takeWhile_all h3]
      exact h
    · rw [if_neg (by exact h3)] at h; cases h

/-- The callback of the repair map returns `undefined` on a valid record. -/
theorem repairBrand_valid {r : Rec} (h : (validate r).errors = []) :
    repairBrand r = none := by
  rcases hv : validate r with ⟨v, errs⟩
  rw [hv] at h
  simp only at h
  subst h
  simp [repairBrand, hv]

/-- A batch whose sole record is valid repairs to the empty batch. -/
theorem valid_singleton_drop {r : Rec} (h : (validate r).errors = []) :
    updateToConformSchema [r] = [] := by
  simp [updateToConformSchema, repairBrand_valid h]

/-! Lemmas about the per-field checkers of `validate`, used for claim C6. -/

theorem stringFieldErrors_key {k : String} {v? : Option Value} {e : JoiError}
    (h : e ∈ stringFieldErrors k v?) : e.key = k := by
  unfold stringFieldErrors at h
  split at h <;> (try split_ifs at h) <;> simp_all

theorem numRangeErrs_key {k : String} {lo? hi? : Option Int} {n : Int}
    {e : JoiError} (h : e ∈ numRangeErrs k lo? hi? n) : e.key = k := by
  unfold numRangeErrs at h
  rcases List.mem_append.mp h with h | h <;>
    (split at h <;> (try split_ifs at h) <;> simp_all)

theorem numberFieldErrors_key {req : Bool} {lo? hi? : Option Int} {k : String}
    {v? : Option Value} {e : JoiError}
    (h : e ∈ numberFieldErrors req lo? hi? k v?) : e.key = k := by
  unfold numberFieldErrors at h
  split at h <;> (try split_ifs at h) <;> (try split at h) <;>
    first
    | exact numRangeErrs_key h
    | simp_all

theorem objectFieldErrors_key {v? : Option Value} {e : JoiError}
    (h : e ∈ objectFieldErrors v?) : e.key = "_id" := by
  unfold objectFieldErrors at h
  split at h <;> simp_all

theorem dateFieldErrors_key {k : String} {v? : Option Value} {e : JoiError}
    (h : e ∈ dateFieldErrors k v?) : e.key = k := by
  unfold dateFieldErrors at h
  split at h <;> simp_all

theorem fieldErrors_key {k : String} {v? : Option Value} {e : JoiError}
    (h : e ∈ fieldErrors k v?) : e.key = k := by
  unfold fieldErrors at h
  split_ifs at h with h1 h2 h3 h4 h5
  · rw [h1]; exact objectFieldErrors_key h
  · exact stringFieldErrors_key h
  · exact numberFieldErrors_key h
  · exact numberFieldErrors_key h
  · exact dateFieldErrors_key h
  · exact numberFieldErrors_key h

theorem filter_key_self {l : List JoiError} {k : String}
    (hl : ∀ e ∈ l, e.key = k) : l.filter (fun e => e.key == k) = l := by
  induction l with
  | nil => rfl
  | cons e t ih =>
    have he := hl e (List.mem_cons_self e t)
    simp [List.filter_cons, he,
      ih (fun x hx => hl x (List.mem_cons_of_mem e hx))]

theorem filter_key_nil {l : List JoiError} {k k' : String}
    (hl : ∀ e ∈ l, e.key = k') (hne : k' ≠ k) :
    l.filter (fun e => e.key == k) = [] := by
  induction l with
  | nil => rfl
  | cons e t ih =>
    have he := hl e (List.mem_cons_self e t)
    have hb : ¬(e.key == k) = true := by simp [he, hne]
    simp [List.filter_cons, hb,
      ih (fun x hx => hl x (List.mem_cons_of_mem e hx))]

theorem flatMap_filter_not_mem (r : Rec) (ks : List String) (k : String)
    (hk : k ∉ ks) :
    (ks.flatMap (fun q => fieldErrors q (getField r q))).filter
      (fun e => e.key == k) = [] := by
  induction ks with
  | nil => rfl
  | cons a t ih =>
    have ha : a ≠ k := fun hak => hk (by rw [hak]; exact List.mem_cons_self _ _)
    have ht : k ∉ t := fun hkt => hk (List.mem_cons_of_mem a hkt)
    rw [List.flatMap_cons, List.filter_append,
      filter_key_nil (fun e he => fieldErrors_key he) ha, List.nil_append,
      ih ht]

theorem flatMap_filter_mem (r : Rec) (ks : List String) (k : String)
    (hk : k ∈ ks) (hnd : ks.Nodup) :
    (ks.flatMap (fun q => fieldErrors q (getField r q))).filter
      (fun e => e.key == k) = fieldErrors k (getField r k) := by
  induction ks with
  | nil => cases hk
  | cons a t ih =>
    rw [List.flatMap_cons, List.filter_append]
    rcases List.mem_cons.mp hk with rfl | hkt
    · rw [filter_key_self (fun e he => fieldErrors_key he),
        flatMap_filter_not_mem r t k (List.nodup_cons.mp hnd).1,
        List.append_nil]
    · have ha : a ≠ k := fun hak => (List.nodup_cons.mp hnd).1 (hak ▸ hkt)
      rw [filter_key_nil (fun e he => fieldErrors_key he) ha, List.nil_append]
      exact ih hkt (List.nodup_cons.mp hnd).2

theorem filter_key_nil_of_unknown {l : List JoiError} {k : String}
    (hk : k ∈ schemaKeys) (hl : ∀ e ∈ l, e.key ∉ schemaKeys) :
    l.filter (fun e => e.key == k) = [] := by
  induction l with
  | nil => rfl
  | cons e t ih =>
    have he := hl e (List.mem_cons_self e t)
    have hb : ¬(e.key == k) = true := by
      simp only [beq_iff_eq]
      rintro rfl
      exact he hk
    simp [List.filter_cons, hb,
      ih (fun x hx => hl x (List.mem_cons_of_mem e hx))]

theorem getV_map_convert (r : Rec) (k : String) :
    getV (r.map (fun p => (p.1, convertEntry p.1 p.2))) k =
      (getV r k).map (convertEntry k) := by
  induction r with
  | nil => rfl
  | cons p t ih =>
    by_cases h : p.1 = k
    · simp [getV, h]
    · simp [getV, h, ih]

theorem getField_some {r : Rec} {k : String} {v : Value}
    (h : getField r k = some v) : getV r k = some v := by
  unfold getField at h
  cases hg : getV r k with
  | none => rw [hg] at h; cases h
  | some w => rw [hg] at h; cases w <;> simp_all

/-- For every schema field, the errors `validate` reports under that key are
exactly what the field checker yields on the field value alone. -/
theorem validate_filter_key (r : Rec) (k : String) (hk : k ∈ schemaKeys) :
    (validate r).errors.filter (fun e => e.key == k) =
      fieldErrors k (getField r k) := by
  simp only [validate]
  rw [List.filter_append, flatMap_filter_mem r schemaKeys k hk (by decide)]
  have hu : ∀ e ∈ (r.filter
      (fun p => decide (p.1 ∉ schemaKeys ∧ p.2 ≠ Value.undefined))).map
      (fun p => (⟨p.1, p.2, .objectUnknown⟩ : JoiError)), e.key ∉ schemaKeys := by
    intro e he
    obtain ⟨p, hpf, rfl⟩ := List.mem_map.mp he
    have := (List.mem_filter.mp hpf).2
    simp only [decide_eq_true_eq] at this
    exact this.1
  rw [filter_key_nil_of_unknown hk hu, List.append_nil]

/-! Claim C1. -/

/-- Claim C1, counterexample: `validAcme` validates successfully against the
canonical Brands schema, yet `updateToConformSchema` does not return it in its
output collection — the fully valid record is removed from the corrected
batch (the map callback returns `undefined` for it and `.filter(Boolean)`
drops it), contradicting the claim that valid records pass through
unchanged. -/
theorem C1_counterexample :
    (validate validAcme).errors = [] ∧
    validAcme ∉ updateToConformSchema [validAcme] := by
  constructor
  · decide
  · decide

/-- Claim C1, amended: for every record that already validates successfully
against the canonical Brands schema, the repair routine removes it from the
output collection (a singleton batch of it repairs to the empty batch);
upstream this still counts as "no update needed". -/
theorem C1_valid_records_dropped (r : Rec) (h : (validate r).errors = []) :
    updateToConformSchema [r] = [] :=
  valid_singleton_drop h

/-- Claim C1, witness: the amended theorem applied to the concrete valid
record `validAcme`. -/
theorem C1_witness :
    (validate validAcme).errors = [] ∧ updateToConformSchema [validAcme] = [] :=
  ⟨by decide, C1_valid_records_dropped validAcme (by decide)⟩

/-! Claim C2. -/

/-- Claim C2, counterexample: on the batch
`[{_id: 1, brandName: "Acme", yearFounded: "1950", headquarters: "NYC",
numberOfLocations: 5}]` the reported changed count is not 1. -/
theorem C2_counterexample :
    (validateAndUpdate [acmeRec]).modifiedCount ≠ 1 := by decide

/-- Claim C2, amended: on that batch the output record handed to the bulk
write does carry `yearFounded` as the integer 1950, but the reported changed
count is 0: the only validation error is `_id: 1` failing `Joi.object()`, so
the repair pass deletes `_id`, the `replaceOne` filter has no identifier, and
no stored document is matched or modified. -/
theorem C2_year_coerced_but_zero_changed :
    (validateAndUpdate [acmeRec]).ops.map
        (fun op => getV op.replacement "yearFounded") = [some (Value.num 1950)] ∧
    (validateAndUpdate [acmeRec]).ops.map (fun op => op.filterId) = [none] ∧
    (validateAndUpdate [acmeRec]).modifiedCount = 0 ∧
    (validateAndUpdate [acmeRec]).message = "0 brands updated successfully." := by
  refine ⟨by decide, by decide, by decide, ?_⟩
  rfl

/-! Claim C3. -/

/-- Claim C3, counterexample: repairing `rLowYear` deletes `yearFounded`, the
corrected record fails the second validation pass (`yearFounded` is required),
yet `validateAndUpdate` still hands it to the bulk write and the store reports
one modified document — a record failing the second pass is written. -/
theorem C3_counterexample :
    (validateAndUpdate [rLowYear]).ops.map
      (fun op => decide ((validate op.replacement).errors = [])) = [false] ∧
    (validateAndUpdate [rLowYear]).wrote = true ∧
    (validateAndUpdate [rLowYear]).modifiedCount = 1 := by
  refine ⟨by decide, by decide, by decide⟩

/-- Claim C3, amended: every record the repair pass keeps is re-validated and
the `.value` of that second pass is handed to the bulk-write step — whether or
not the second validation succeeds; the second pass normalizes (applies
conversions) but does not filter out records that still fail the schema. -/
theorem C3_all_corrected_written (brands : List Rec) (b : Rec)
    (h : b ∈ updateToConformSchema brands) :
    mkBulkOp (validate b).value ∈ (validateAndUpdate brands).ops := by
  unfold validateAndUpdate
  cases hu : updateToConformSchema brands with
  | nil => rw [hu] at h; cases h
  | cons x xs =>
    rw [hu] at h
    exact List.mem_map.mpr ⟨(validate b).value, List.mem_map.mpr ⟨b, h, rfl⟩, rfl⟩

/-- Claim C3, witness: the amended theorem at the concrete batch `[rLowYear]`,
whose repaired record `rLowYearRepaired` fails the second validation pass. -/
theorem C3_witness :
    mkBulkOp (validate rLowYearRepaired).value ∈
      (validateAndUpdate [rLowYear]).ops :=
  C3_all_corrected_written [rLowYear] rLowYearRepaired (by decide)

/-! Claim C4. -/

/-- Claim C4: for every validation error whose field name contains "year"
case-insensitively, the repair branch always ends with the offending key
deleted from the record, and when the raw value is a (nonempty) numeric
string the branch first assigns the parsed integer to the canonical
`yearFounded` field, i.e. the mutation is exactly
`delete` after `brand.yearFounded = parseInt(value)`. -/
theorem C4_year_branch (valV brand : Rec) (e : JoiError)
    (hy : containsSub "year" (lowerStr e.key) = true) :
    getV (applyError valV brand e) e.key = none ∧
    (∀ s n, e.value = Value.str s → jsToNumber? s = some n → s.data ≠ [] →
      applyError valV brand e =
        delV (setV brand "yearFounded" (Value.num n)) e.key) := by
  have hc : classify e.key = Category.year := by simp [classify, hy]
  constructor
  · simp only [applyError, hc]
    exact getV_delV_self _ _
  · intro s n hs hn hne
    have hcond : (!jsIsNaN e.value && truthy e.value) = true := by
      simp [jsIsNaN, truthy, hs, hn, hne]
    simp only [applyError, hc, hcond, if_true]
    rw [hs, jsParseInt_agrees hn hne]

/-- Claim C4, witness: the theorem applied to the alias field `yearFound`
holding the numeric string "1950". -/
theorem C4_witness :
    getV (applyError [] [("yearFound", Value.str "1950")]
      ⟨"yearFound", Value.str "1950", ErrKind.objectUnknown⟩) "yearFound"
      = none ∧
    applyError [] [("yearFound", Value.str "1950")]
      ⟨"yearFound", Value.str "1950", ErrKind.objectUnknown⟩ =
      delV (setV [("yearFound", Value.str "1950")] "yearFounded"
        (Value.num 1950)) "yearFound" :=
  ⟨(C4_year_branch [] [("yearFound", Value.str "1950")]
      ⟨"yearFound", Value.str "1950", ErrKind.objectUnknown⟩ (by decide)).1,
   (C4_year_branch [] [("yearFound", Value.str "1950")]
      ⟨"yearFound", Value.str "1950", ErrKind.objectUnknown⟩ (by decide)).2
     "1950" 1950 rfl (by decide) (by decide)⟩

/-! Claim C5. -/

/-- Claim C5: field classification is a total pure function of the field name
of the error — the name is lower-cased and tested for substring containment
against the fixed anchors in source order: "year" routes to Year, "locations"
to Locations, "hqaddress" to Headquarters, "brandname" to BrandName, and a
name containing none of the anchors routes to Unknown, whose fields the
repair step deletes outright with no correction attempted. -/
theorem C5_classifier_total (k : String) :
    (containsSub "year" (lowerStr k) = true → classify k = Category.year) ∧
    (containsSub "year" (lowerStr k) = false →
      containsSub "locations" (lowerStr k) = true →
      classify k = Category.locations) ∧
    (containsSub "year" (lowerStr k) = false →
      containsSub "locations" (lowerStr k) = false →
      containsSub "hqaddress" (lowerStr k) = true →
      classify k = Category.headquarters) ∧
    (containsSub "year" (lowerStr k) = false →
      containsSub "locations" (lowerStr k) = false →
      containsSub "hqaddress" (lowerStr k) = false →
      containsSub "brandname" (lowerStr k) = true →
      classify k = Category.brandName) ∧
    (containsSub "year" (lowerStr k) = false →
      containsSub "locations" (lowerStr k) = false →
      containsSub "hqaddress" (lowerStr k) = false →
      containsSub "brandname" (lowerStr k) = false →
      classify k = Category.unknown) ∧
    (∀ (valV brand : Rec) (e : JoiError), classify e.key = Category.unknown →
      applyError valV brand e = delV brand e.key) := by
  refine ⟨?_, ?_, ?_, ?_, ?_, ?_⟩
  · intro h1; simp [classify, h1]
  · intro h1 h2; simp [classify, h1, h2]
  · intro h1 h2 h3; simp [classify, h1, h2, h3]
  · intro h1 h2 h3 h4; simp [classify, h1, h2, h3, h4]
  · intro h1 h2 h3 h4; simp [classify, h1, h2, h3, h4]
  · intro valV brand e hc; simp [applyError, hc]

/-- Claim C5, witness: the classifier theorem applied to one concrete field
name per category, and the unknown branch deleting a concrete field. -/
theorem C5_witness :
    classify "YearFound" = Category.year ∧
    classify "numLocations" = Category.locations ∧
    classify "HQAddress" = Category.headquarters ∧
    classify "myBrandName" = Category.brandName ∧
    classify "notes" = Category.unknown ∧
    applyError [] [("notes", Value.str "x")]
        ⟨"notes", Value.str "x", ErrKind.objectUnknown⟩ =
      delV [("notes", Value.str "x")] "notes" :=
  ⟨(C5_classifier_total "YearFound").1 (by decide),
   (C5_classifier_total "numLocations").2.1 (by decide) (by decide),
   (C5_classifier_total "HQAddress").2.2.1 (by decide) (by decide) (by decide),
   (C5_classifier_total "myBrandName").2.2.2.1 (by decide) (by decide)
     (by decide) (by decide),
   (C5_classifier_total "notes").2.2.2.2.1 (by decide) (by decide) (by decide)
     (by decide),
   (C5_classifier_total "notes").2.2.2.2.2 [] [("notes", Value.str "x")]
     ⟨"notes", Value.str "x", ErrKind.objectUnknown⟩ (by decide)⟩

/-! Claim C8. -/

/-- Claim C8, counterexample: in `rBrandMess` the unknown key `myBrandName`
is classified BrandName, but the branch resolves `brandKey` to `brandHq`
(the first key of the validated value containing "brand" — taken from the
whole value, not its valid portion) — so the offending key `myBrandName`
survives the repair, and canonical `brandName` is overwritten with
`undefined` (the missing `name` attribute of the string value of
`brandHq`). -/
theorem C8_counterexample :
    (updateToConformSchema [rBrandMess]).map (fun r => getV r "myBrandName") =
      [some (Value.num 5)] ∧
    (updateToConformSchema [rBrandMess]).map (fun r => getV r "brandName") =
      [some Value.undefined] := by
  refine ⟨by decide, by decide⟩

/-- Claim C8, amended: for every error classified BrandName, the repairer
searches the whole validated value (not only its valid portion) for the first
field whose name contains "brand"; it assigns the `name` attribute of the
value of that field (`undefined` when absent) to canonical `brandName`, and
deletes the found key — not necessarily the offending key; every field other
than `brandName` and the found key is untouched. -/
theorem C8_brand_branch (valV brand : Rec) (e : JoiError)
    (h : classify e.key = Category.brandName) :
    applyError valV brand e =
      delV (setV brand "brandName"
        (nameAttr ((firstBrandKey valV).bind (getV valV))))
        ((firstBrandKey valV).getD "undefined") ∧
    (∀ k, k ≠ "brandName" → k ≠ (firstBrandKey valV).getD "undefined" →
      getV (applyError valV brand e) k = getV brand k) := by
  have h1 : applyError valV brand e =
      delV (setV brand "brandName"
        (nameAttr ((firstBrandKey valV).bind (getV valV))))
        ((firstBrandKey valV).getD "undefined") := by
    simp [applyError, h]
  refine ⟨h1, ?_⟩
  intro k hk1 hk2
  rw [h1, getV_delV_ne _ hk2, getV_setV_ne _ _ hk1]

/-- Claim C8, witness: the amended theorem at a concrete BrandName-classified
error whose found key (`brandHq`) differs from the offending key
(`myBrandName`); the offending key keeps its value. -/
theorem C8_witness :
    applyError [("brandHq", Value.str "x")]
        [("myBrandName", Value.num 5), ("brandName", Value.str "Acme")]
        ⟨"myBrandName", Value.num 5, ErrKind.objectUnknown⟩ =
      delV (setV [("myBrandName", Value.num 5), ("brandName", Value.str "Acme")]
        "brandName"
        (nameAttr ((firstBrandKey [("brandHq", Value.str "x")]).bind
          (getV [("brandHq", Value.str "x")]))))
        ((firstBrandKey [("brandHq", Value.str "x")]).getD "undefined") ∧
    getV (applyError [("brandHq", Value.str "x")]
        [("myBrandName", Value.num 5), ("brandName", Value.str "Acme")]
        ⟨"myBrandName", Value.num 5, ErrKind.objectUnknown⟩) "myBrandName" =
      getV [("myBrandName", Value.num 5), ("brandName", Value.str "Acme")]
        "myBrandName" :=
  ⟨(C8_brand_branch [("brandHq", Value.str "x")]
      [("myBrandName", Value.num 5), ("brandName", Value.str "Acme")]
      ⟨"myBrandName", Value.num 5, ErrKind.objectUnknown⟩ (by decide)).1,
   (C8_brand_branch [("brandHq", Value.str "x")]
      [("myBrandName", Value.num 5), ("brandName", Value.str "Acme")]
      ⟨"myBrandName", Value.num 5, ErrKind.objectUnknown⟩ (by decide)).2
     "myBrandName" (by decide) (by decide)⟩

/-! Claim C7. -/

/-- Claim C7, counterexample: `rExtra` (valid but for one unknown extra field)
is repaired by the first pass to a record the pass keeps, yet applying the
repair routine a second time to that output yields the empty batch — the
fully-repaired record is dropped, not returned unchanged. -/
theorem C7_counterexample :
    updateToConformSchema [rExtra] = [rExtraRepaired] ∧
    updateToConformSchema (updateToConformSchema [rExtra]) = [] := by
  constructor
  · decide
  · decide

/-- Claim C7, amended: the repair routine is not idempotent as a batch
transformation — whenever the first pass turns a record into a schema-valid
record, a second application of `updateToConformSchema` to the output drops
that record (valid records are filtered out) instead of returning it with no
further changes. -/
theorem C7_second_pass_drops (r r' : Rec)
    (h1 : updateToConformSchema [r] = [r'])
    (h2 : (validate r').errors = []) :
    updateToConformSchema (updateToConformSchema [r]) = [] := by
  rw [h1]
  exact valid_singleton_drop h2

/-- Claim C7, witness: the amended theorem applied to `rExtra`, whose repair
output `rExtraRepaired` is schema-valid. -/
theorem C7_witness :
    updateToConformSchema (updateToConformSchema [rExtra]) = [] :=
  C7_second_pass_drops rExtra rExtraRepaired (by decide) (by decide)

/-! Claim C9. -/

/-- Claim C9: whenever the repair pass over the fetched batch yields an empty
corrected set, `validateAndUpdate` answers with the message "All brand data is
already correct. No updates needed.", issues no write call, reports no
modifications, and leaves the backing store untouched. -/
theorem C9_no_updates_needed (store : List Rec)
    (h : updateToConformSchema store = []) :
    validateAndUpdate store =
      ⟨"All brand data is already correct. No updates needed.",
       false, [], 0, store⟩ := by
  unfold validateAndUpdate
  rw [h]

/-- Claim C9, witness: the theorem applied to the all-valid singleton store
`[validAcme]`. -/
theorem C9_witness :
    validateAndUpdate [validAcme] =
      ⟨"All brand data is already correct. No updates needed.",
       false, [], 0, [validAcme]⟩ :=
  C9_no_updates_needed [validAcme] (by decide)

/-! Claim C6. -/

theorem convertEntry_year_str {s : String} {n : Int} (hne : ¬s.data = [])
    (hn : jsToNumber? s = some n) :
    convertEntry "yearFounded" (Value.str s) = Value.num n := by
  unfold convertEntry
  rw [if_neg (by decide), if_pos (by decide)]
  show (if s.data.isEmpty then Value.str s
        else match jsToNumber? s with
             | some n => Value.num n
             | none => Value.str s) = Value.num n
  rw [if_neg (by simpa using hne), hn]

theorem numberFieldErrors_year_ok {s : String} {n : Int} (hne : ¬s.data = [])
    (hn : jsToNumber? s = some n) (h1600 : 1600 ≤ n) (hcy : n ≤ currentYear) :
    numberFieldErrors true (some 1600) (some currentYear) "yearFounded"
      (some (Value.str s)) = [] := by
  show (if s.data.isEmpty
        then [⟨"yearFounded", Value.str s, ErrKind.numberBase⟩]
        else match jsToNumber? s with
             | some n =>
               numRangeErrs "yearFounded" (some 1600) (some currentYear) n
             | none => [⟨"yearFounded", Value.str s, ErrKind.numberBase⟩]) = []
  rw [if_neg (by simpa using hne), hn]
  show (if n < 1600
        then [JoiError.mk "yearFounded" (Value.num n) ErrKind.numberMin]
        else []) ++
       (if currentYear < n
        then [JoiError.mk "yearFounded" (Value.num n) ErrKind.numberMax]
        else []) = []
  rw [if_neg (not_lt.mpr h1600), if_neg (not_lt.mpr hcy)]
  rfl

/-- Claim C6: the validator runs in collect-all-errors mode and never throws
(it is a total function into `ValidationResult`, so every failure surfaces as
an error entry, never an exception). Part 1: for every schema field, the
errors reported under that key are exactly the one-field checker applied to
that field value alone — so each field is evaluated independently of failures
of every other field. Part 2: every unknown non-`undefined` binding
contributes its `object.unknown` error, so the full error list is available
in one pass. Part 3: a numeric-looking string in `yearFounded` is coerced to
a number before the constraint checks, yielding no error and a numeric
converted value when it is in range. -/
theorem C6_validator (r : Rec) :
    (∀ k, k ∈ schemaKeys →
      (validate r).errors.filter (fun e => e.key == k) =
        fieldErrors k (getField r k)) ∧
    (∀ p, p ∈ r → p.1 ∉ schemaKeys → p.2 ≠ Value.undefined →
      (⟨p.1, p.2, ErrKind.objectUnknown⟩ : JoiError) ∈ (validate r).errors) ∧
    (∀ s n, getField r "yearFounded" = some (Value.str s) →
      jsToNumber? s = some n → 1600 ≤ n → n ≤ currentYear →
      (validate r).errors.filter (fun e => e.key == "yearFounded") = [] ∧
      getV (validate r).value "yearFounded" = some (Value.num n)) := by
  refine ⟨fun k hk => validate_filter_key r k hk, ?_, ?_⟩
  · intro p hp h1 h2
    simp only [validate]
    exact List.mem_append_right _
      (List.mem_map.mpr ⟨p, List.mem_filter.mpr ⟨hp, by simp [h1, h2]⟩, rfl⟩)
  · intro s n hf hn h1600 hcy
    have hne : ¬s.data = [] := by
      intro habs
      have h0 : jsToNumber? s = some 0 := by
        unfold jsToNumber?
        rw [if_pos (by simp [habs])]
      rw [h0] at hn
      injection hn with hn
      omega
    constructor
    · rw [validate_filter_key r "yearFounded" (by decide), hf]
      have hstep : fieldErrors "yearFounded" (some (Value.str s)) =
          numberFieldErrors true (some 1600) (some currentYear) "yearFounded"
            (some (Value.str s)) := rfl
      rw [hstep]
      exact numberFieldErrors_year_ok hne hn h1600 hcy
    · simp only [validate]
      rw [getV_map_convert, getField_some hf]
      show some (convertEntry "yearFounded" (Value.str s)) = some (Value.num n)
      rw [convertEntry_year_str hne hn]

/-- Claim C6, witness: the validator theorem applied to `acmeRec` (field
independence at `_id`, the coercion of `yearFounded = "1950"`) and to
`rExtra` (the unknown key `notes` reported). -/
theorem C6_witness :
    (validate acmeRec).errors.filter (fun e => e.key == "_id") =
      fieldErrors "_id" (getField acmeRec "_id") ∧
    (⟨"notes", Value.str "x", ErrKind.objectUnknown⟩ : JoiError) ∈
      (validate rExtra).errors ∧
    ((validate acmeRec).errors.filter (fun e => e.key == "yearFounded") = [] ∧
      getV (validate acmeRec).value "yearFounded" = some (Value.num 1950)) :=
  ⟨(C6_validator acmeRec).1 "_id" (by decide),
   (C6_validator rExtra).2.1 ("notes", Value.str "x") (by decide) (by decide)
     (by decide),
   (C6_validator acmeRec).2.2 "1950" 1950 (by decide) (by decide) (by decide)
     (by decide)⟩

/-! Claim C10. -/

/-- Claim C10: seed-data generation is deterministic — because iteration `i`
re-seeds the generator with `100 + i` before drawing any attribute, the
records returned by `generateBrandsData` do not depend on the ambient
generator state, so two invocations with the same count return identical
lists, and every `seedData` call inserts the same 10 brand records. -/
theorem C10_seed_deterministic {σ : Type} (F : FakerApi σ) (n : Nat)
    (s₁ s₂ : σ) :
    (generateBrandsData F n s₁).1 = (generateBrandsData F n s₂).1 ∧
    seedData F s₁ = seedData F s₂ := by
  constructor
  · cases n with
    | zero => rfl
    | succ m => rfl
  · rfl

end Brands
